import Mathlib

/-!
Verification of `src/assets/js/interactive.js` (slide-deck interactive widgets):
a shallow embedding in Lean 4 of the scoreboard, countdown timer, hash demo
error handling, DOM-lookup based operations and formatting utilities, with
theorems settling the specified behavioural claims.

Conventions of the embedding:
* JavaScript numbers holding integer counters are modelled as `Int`
  (or `Nat` where the source only ever holds naturals).
* DOM elements are records of the fields the script touches; the page is a
  `List` of such records, and `document.getElementById` is first-match lookup.
* External capabilities (ethers.js) are parameters of the model; a JavaScript
  exception crossing the boundary is an `Except.error`.
-/

namespace Interactive

/-! ## Scoreboard (`scores`, `updateScore`, `setScore`)

Source state: `let scores = { hacker: 0, security: 0 };`.
`updateScore`/`setScore` guard on `scores.hasOwnProperty(team)`, whose own
properties are exactly `"hacker"` and `"security"`; the dynamic property
access `scores[team]` is embedded as a case split on the key. -/

structure Scores where
  hacker : Int
  security : Int
deriving DecidableEq

def initialScores : Scores := { hacker := 0, security := 0 }

/-- Embeds `scores.hasOwnProperty(team)`: the object literal owns exactly the two keys. -/
def scoresHasOwnProperty (team : String) : Prop :=
  team = "hacker" ∨ team = "security"

instance : DecidablePred scoresHasOwnProperty := fun team => by
  unfold scoresHasOwnProperty; infer_instance

/-- Embeds `function updateScore(team, points)`: `scores[team] += points` when the key
is owned, otherwise nothing. (The display refresh touches no score state.) -/
def updateScore (sc : Scores) (team : String) (points : Int) : Scores :=
  if team = "hacker" then { sc with hacker := sc.hacker + points }
  else if team = "security" then { sc with security := sc.security + points }
  else sc

/-- Embeds `function setScore(team, points)`: `scores[team] = points` when the key is
owned, otherwise nothing. -/
def setScore (sc : Scores) (team : String) (points : Int) : Scores :=
  if team = "hacker" then { sc with hacker := points }
  else if team = "security" then { sc with security := points }
  else sc

/-! ## Formatting utility `truncateHash` -/

/-- Embeds `str.substring(start)` for a possibly negative `start` (JS clamps negative
indices to 0, which `Int.toNat` performs). -/
def jsSubstringFrom (str : String) (start : Int) : String :=
  ⟨str.data.drop start.toNat⟩

/-- Embeds `str.substring(0, stop)` (JS clamps `stop` past the end, as `take` does). -/
def jsSubstringTo (str : String) (stop : Nat) : String :=
  ⟨str.data.take stop⟩

/-- Embeds `function truncateHash(hash, startChars = 6, endChars = 4)`. -/
def truncateHash (hash : String) (startChars : Nat := 6) (endChars : Nat := 4) :
    String :=
  if hash.length ≤ startChars + endChars + 3 then hash
  else jsSubstringTo hash startChars ++ "..." ++
    jsSubstringFrom hash ((hash.length : Int) - (endChars : Int))

/-! ## Hash demo error handling (`computeKeccakHash`)

The ethers.js capability is a parameter: `loaded` models
`typeof ethers !== 'undefined'`; `toUtf8Bytes` and `keccak256` model the two
external calls, an `Except.error` being a thrown JavaScript exception. -/

/-- The UTF-8 encoding of a string, as the byte values. -/
def utf8Bytes (s : String) : List Nat :=
  s.toUTF8.toList.map (fun b => b.toNat)

structure EthersEnv where
  loaded : Bool
  toUtf8Bytes : String → Except String (List Nat)
  keccak256 : List Nat → Except String String

/-- Embeds `async function computeKeccakHash(input)`: the missing-capability check,
then `ethers.keccak256(ethers.toUtf8Bytes(input))` inside `try`/`catch`.
The result is `Except.ok` of the returned string; an uncaught exception
would be `Except.error`. -/
def computeKeccakHash (env : EthersEnv) (input : String) :
    Except String String :=
  if env.loaded = false then .ok "Error: ethers.js not loaded"
  else
    match env.toUtf8Bytes input with
    | .error _ => .ok "Error computing hash"
    | .ok bytes =>
      match env.keccak256 bytes with
      | .error _ => .ok "Error computing hash"
      | .ok hash => .ok hash

/-! ## Countdown timer

Source state: `let timerInterval = null; let timerSeconds = 0;` plus the
display element the running interval's callback captured.  The model keeps
the browser's registry of installed-and-not-cleared intervals (`live`), a
fresh-handle counter (`next`, interval ids are positive so the truthiness
test `if (timerInterval)` is the `Option` test), whether the current
interval's `onComplete` is a function (`hasCallback`), and how many times an
`onComplete` callback has been invoked (`completions`). -/

structure TimerSys where
  timerInterval : Option Nat
  timerSeconds : Int
  displayText : String
  displayColor : String
  displayAnim : String
  hasCallback : Bool
  completions : Nat
  live : List Nat
  next : Nat
deriving DecidableEq

def initTimerSys : TimerSys :=
  { timerInterval := none, timerSeconds := 0, displayText := "",
    displayColor := "", displayAnim := "", hasCallback := false,
    completions := 0, live := [], next := 1 }

/-- Embeds `str.padStart(targetLength, padChar)`. -/
def padStart (str : String) (targetLength : Nat) (padChar : Char) : String :=
  if targetLength ≤ str.length then str
  else String.mk (List.replicate (targetLength - str.length) padChar) ++ str

/-- Embeds `function updateTimerDisplay(display)`: `Math.floor(timerSeconds / 60)`
is floor division, `timerSeconds % 60` is the JS truncated remainder, and the
seconds part is zero-padded to two digits. -/
def renderTime (t : Int) : String :=
  toString (Int.fdiv t 60) ++ ":" ++ padStart (toString (Int.tmod t 60)) 2 '0'

/-- Embeds `clearInterval(handle)` applied to the browser's interval registry
(guarded by the truthiness of the handle, as every call site is). -/
def clearIntervalIn (live : List Nat) (h : Option Nat) : List Nat :=
  match h with
  | none => live
  | some i => live.erase i

/-- Embeds `function startTimer(displayId, seconds, onComplete)`: `found` is whether
`getElementById(displayId)` resolved, `cb` whether `onComplete` is a
function.  When found: clear any existing interval, set `timerSeconds`,
render immediately, install a fresh interval. -/
def startTimer (s : TimerSys) (found : Bool) (seconds : Int) (cb : Bool) :
    TimerSys :=
  if found = false then s
  else
    { s with
      live := s.next :: clearIntervalIn s.live s.timerInterval,
      timerInterval := some s.next,
      next := s.next + 1,
      timerSeconds := seconds,
      displayText := renderTime seconds,
      hasCallback := cb }

/-- One firing of the interval callback installed by `startTimer`, paired
with the sequence of writes to the display's text during the callback:
decrement, re-render, then on reaching ≤ 0 clear the interval, overwrite the
text with the fixed message, start the pulse animation and invoke
`onComplete` if it is a function; finally the 30-second warning and
≤ 10-second danger colour checks (which run on every tick, after the expiry
branch, on the decremented value). -/
def tickWrites (s : TimerSys) : TimerSys × List String :=
  let sec := s.timerSeconds - 1
  let color :=
    if sec ≤ 10 then "#ef4444"
    else if sec = 30 then "#f59e0b"
    else s.displayColor
  if sec ≤ 0 then
    ({ s with
        timerSeconds := sec,
        live := clearIntervalIn s.live s.timerInterval,
        timerInterval := none,
        displayText := "TIME\x27S UP!",
        displayAnim := "pulse 0.5s infinite",
        completions := s.completions + (if s.hasCallback then 1 else 0),
        displayColor := color },
     [renderTime sec, "TIME\x27S UP!"])
  else
    ({ s with
        timerSeconds := sec,
        displayText := renderTime sec,
        displayColor := color },
     [renderTime sec])

def tick (s : TimerSys) : TimerSys := (tickWrites s).1

/-- Runs `n` consecutive firings of the interval callback. -/
def ticks : Nat → TimerSys → TimerSys
  | 0, s => s
  | n + 1, s => ticks n (tick s)

/-- Embeds `function stopTimer()`. -/
def stopTimer (s : TimerSys) : TimerSys :=
  match s.timerInterval with
  | none => s
  | some _ =>
    { s with live := clearIntervalIn s.live s.timerInterval,
             timerInterval := none }

/-- Embeds `function resetTimer(displayId, seconds)`: note that `stopTimer()` runs
before the element lookup, so it happens even when the display is absent. -/
def resetTimer (s : TimerSys) (found : Bool) (seconds : Int) : TimerSys :=
  let s1 := stopTimer s
  if found = false then s1
  else
    { s1 with timerSeconds := seconds, displayText := renderTime seconds,
              displayColor := "", displayAnim := "" }

/-- States reachable by any sequence of `startTimer`, `stopTimer`,
`resetTimer` calls and interval firings; the callback fires only while an
interval handle is installed. -/
inductive TimerReach : TimerSys → Prop
  | init : TimerReach initTimerSys
  | start (s : TimerSys) (found : Bool) (seconds : Int) (cb : Bool) :
      TimerReach s → TimerReach (startTimer s found seconds cb)
  | stop (s : TimerSys) : TimerReach s → TimerReach (stopTimer s)
  | reset (s : TimerSys) (found : Bool) (seconds : Int) :
      TimerReach s → TimerReach (resetTimer s found seconds)
  | tick (s : TimerSys) :
      TimerReach s → s.timerInterval.isSome = true → TimerReach (tick s)

/-- Reachability when every `startTimer`/`resetTimer` argument is a
non-negative number of seconds (zero allowed) — the hypothesis of claim C5
as stated. -/
inductive TimerReachNonneg : TimerSys → Prop
  | init : TimerReachNonneg initTimerSys
  | start (s : TimerSys) (found : Bool) (seconds : Int) (cb : Bool) :
      TimerReachNonneg s → 0 ≤ seconds →
      TimerReachNonneg (startTimer s found seconds cb)
  | stop (s : TimerSys) : TimerReachNonneg s → TimerReachNonneg (stopTimer s)
  | reset (s : TimerSys) (found : Bool) (seconds : Int) :
      TimerReachNonneg s → 0 ≤ seconds →
      TimerReachNonneg (resetTimer s found seconds)
  | tick (s : TimerSys) :
      TimerReachNonneg s → s.timerInterval.isSome = true →
      TimerReachNonneg (tick s)

/-- Reachability when every `startTimer` argument is positive and every
`resetTimer` argument non-negative. -/
inductive TimerReachPos : TimerSys → Prop
  | init : TimerReachPos initTimerSys
  | start (s : TimerSys) (found : Bool) (seconds : Int) (cb : Bool) :
      TimerReachPos s → 0 < seconds →
      TimerReachPos (startTimer s found seconds cb)
  | stop (s : TimerSys) : TimerReachPos s → TimerReachPos (stopTimer s)
  | reset (s : TimerSys) (found : Bool) (seconds : Int) :
      TimerReachPos s → 0 ≤ seconds →
      TimerReachPos (resetTimer s found seconds)
  | tick (s : TimerSys) :
      TimerReachPos s → s.timerInterval.isSome = true →
      TimerReachPos (tick s)

/-- The installed interval handle and the registry agree: the registry holds
exactly the current handle, or is empty when there is none. -/
def timerHandleInv (s : TimerSys) : Prop :=
  (s.timerInterval = none → s.live = []) ∧
  (∀ h : Nat, s.timerInterval = some h → s.live = [h])

/-! ## DOM model for the element-lookup operations

A page is a list of elements carrying the fields the script touches;
`document.getElementById` is first-match lookup, and a guarded mutation
(`const el = document.getElementById(id); if (el) …`) is `updateFirst`. -/

structure Elem where
  id : String
  classes : List String
deriving DecidableEq

/-- Mutate the first element a predicate matches; when none matches the page
is returned unchanged. -/
def updateFirst {α : Type} (p : α → Prop) [DecidablePred p] (f : α → α) :
    List α → List α
  | [] => []
  | x :: xs => if p x then f x :: xs else x :: updateFirst p f xs

/-- The index `updateFirst` mutates: the first index its predicate holds at. -/
def firstMatchIdx {α : Type} (p : α → Prop) [DecidablePred p] :
    List α → Option Nat
  | [] => none
  | x :: xs => if p x then some 0 else (firstMatchIdx p xs).map (· + 1)

/-- Embeds `element.classList.add(c)`: appends unless already present. -/
def classListAdd (e : Elem) (c : String) : Elem :=
  if c ∈ e.classes then e else { e with classes := e.classes ++ [c] }

/-- Embeds `element.classList.remove(c)`: removes every occurrence. -/
def classListRemove (e : Elem) (c : String) : Elem :=
  { e with classes := e.classes.filter (fun d => d != c) }

/-- Embeds `function revealAnswer(elementId)`. -/
def revealAnswer (dom : List Elem) (elementId : String) : List Elem :=
  updateFirst (fun e => e.id = elementId)
    (fun e => classListAdd e "revealed") dom

/-- Embeds `function hideAnswer(elementId)`. -/
def hideAnswer (dom : List Elem) (elementId : String) : List Elem :=
  updateFirst (fun e => e.id = elementId)
    (fun e => classListRemove e "revealed") dom

/-- Embeds `function markComplete(itemId)`. -/
def markComplete (dom : List Elem) (itemId : String) : List Elem :=
  updateFirst (fun e => e.id = itemId)
    (fun e => classListAdd (classListRemove e "current") "completed") dom

/-- The first phase of `setCurrent` applied to one element:
`querySelectorAll('.progress-item.current')` matches elements carrying both
classes, and `'current'` is removed from each match. -/
def stripCurrentElem (e : Elem) : Elem :=
  if "progress-item" ∈ e.classes ∧ "current" ∈ e.classes then
    classListRemove e "current"
  else e

def stripCurrent (dom : List Elem) : List Elem :=
  dom.map stripCurrentElem

/-- Embeds `function setCurrent(itemId)`: strip `'current'` from every
`.progress-item.current` match page-wide, then add `'current'` to the target
element unless it is already `'completed'`. -/
def setCurrent (dom : List Elem) (itemId : String) : List Elem :=
  updateFirst (fun e => e.id = itemId)
    (fun e => if "completed" ∈ e.classes then e else classListAdd e "current")
    (stripCurrent dom)

/-! ## Merkle-tree animation and bug highlighting -/

/-- A container holding `.merkle-step` elements, each with its `visible`
flag. -/
structure MerkleContainer where
  id : String
  steps : List Bool
deriving DecidableEq

/-- Source state: `let merkleAnimationStep = 0;` plus the page's
containers. -/
structure MerkleSys where
  merkleAnimationStep : Nat
  containers : List MerkleContainer
deriving DecidableEq

/-- Embeds `function animateMerkleTree(containerId)`. -/
def animateMerkleTree (s : MerkleSys) (containerId : String) : MerkleSys :=
  match s.containers.find? (fun c => c.id == containerId) with
  | none => s
  | some c =>
    if s.merkleAnimationStep < c.steps.length then
      { merkleAnimationStep := s.merkleAnimationStep + 1,
        containers :=
          updateFirst (fun c => c.id = containerId)
            (fun c =>
              { c with steps := c.steps.set s.merkleAnimationStep true })
            s.containers }
    else s

/-- Embeds `function resetMerkleAnimation(containerId)`. -/
def resetMerkleAnimation (s : MerkleSys) (containerId : String) : MerkleSys :=
  match s.containers.find? (fun c => c.id == containerId) with
  | none => s
  | some _ =>
    { merkleAnimationStep := 0,
      containers :=
        updateFirst (fun c => c.id = containerId)
          (fun c => { c with steps := c.steps.map (fun _ => false) })
          s.containers }

/-- A code block holding `.code-line` elements, each with its highlight
flag. -/
structure CodeBlock where
  id : String
  lines : List Bool
deriving DecidableEq

/-- Embeds `function highlightBug(codeBlockId, lineNumber)`: the line is 1-indexed
and JS array indexing makes a non-positive or out-of-range index a no-op. -/
def highlightBug (blocks : List CodeBlock) (codeBlockId : String)
    (lineNumber : Int) : List CodeBlock :=
  updateFirst (fun b => b.id = codeBlockId)
    (fun b =>
      if 1 ≤ lineNumber ∧ (lineNumber - 1).toNat < b.lines.length then
        { b with lines := b.lines.set (lineNumber - 1).toNat true }
      else b)
    blocks

end Interactive

namespace Interactive

/-! ### Claim C1 -/

/-- C1: `updateScore(team, delta)` adds `delta` to the stored score for `team`
and `setScore(team, value)` sets it, if and only if `team` is one of the two
recognized keys `"hacker"` and `"security"`; any other key leaves both scores
unchanged. `updateScore("hacker", 5)` then `updateScore("hacker", -2)` yields
3 for `"hacker"`, and `updateScore("referee", 100)` changes neither score. -/
theorem updateScore_setScore_recognized_keys :
    (∀ sc : Scores, ∀ delta : Int,
      updateScore sc "hacker" delta = { sc with hacker := sc.hacker + delta } ∧
      updateScore sc "security" delta =
        { sc with security := sc.security + delta } ∧
      setScore sc "hacker" delta = { sc with hacker := delta } ∧
      setScore sc "security" delta = { sc with security := delta }) ∧
    (∀ sc : Scores, ∀ team : String, ∀ delta : Int,
      ¬ scoresHasOwnProperty team →
        updateScore sc team delta = sc ∧ setScore sc team delta = sc) ∧
    (updateScore (updateScore initialScores "hacker" 5) "hacker" (-2)).hacker
        = 3 ∧
    updateScore initialScores "referee" 100 = initialScores := by
  refine ⟨?_, ?_, by decide, by decide⟩
  · intro sc delta
    refine ⟨rfl, ?_, rfl, ?_⟩ <;> simp [updateScore, setScore]
  · intro sc team delta hteam
    rw [scoresHasOwnProperty, not_or] at hteam
    simp [updateScore, setScore, hteam.1, hteam.2]

/-- Witness for C1 at concrete inputs. -/
theorem updateScore_setScore_recognized_keys_witness :
    ¬ scoresHasOwnProperty "judge" ∧
    updateScore ⟨4, 7⟩ "judge" 100 = ⟨4, 7⟩ ∧
    setScore ⟨4, 7⟩ "judge" 100 = ⟨4, 7⟩ ∧
    updateScore ⟨4, 7⟩ "security" 3 = ⟨4, 10⟩ :=
  ⟨by decide,
   (updateScore_setScore_recognized_keys.2.1 ⟨4, 7⟩ "judge" 100 (by decide)).1,
   (updateScore_setScore_recognized_keys.2.1 ⟨4, 7⟩ "judge" 100 (by decide)).2,
   ((updateScore_setScore_recognized_keys.1 ⟨4, 7⟩ 3).2.1).trans rfl⟩

/-! ### Claim C8 -/

/-- C8: a hash strictly shorter than `startChars + endChars + 3` is returned
unchanged by `truncateHash`; a strictly longer hash is rendered as its first
`startChars` characters, then `"..."`, then its last `endChars` characters. -/
theorem truncateHash_short_unchanged_long_truncated :
    ∀ (hash : String) (startChars endChars : Nat),
      (hash.length < startChars + endChars + 3 →
        truncateHash hash startChars endChars = hash) ∧
      (startChars + endChars + 3 < hash.length →
        (truncateHash hash startChars endChars).data =
          hash.data.take startChars ++ "...".data ++
            hash.data.drop (hash.data.length - endChars)) := by
  intro hash s e
  constructor
  · intro hlt
    rw [truncateHash, if_pos (Nat.le_of_lt hlt)]
  · intro hgt
    rw [truncateHash, if_neg (by omega)]
    have hcast : ((hash.length : Int) - (e : Int)).toNat = hash.length - e := by
      omega
    simp only [jsSubstringTo, jsSubstringFrom, hcast]
    rfl

/-- Witness for C8 at concrete inputs. -/
theorem truncateHash_short_unchanged_long_truncated_witness :
    ("0xabcd".length < 4 + 4 + 3 ∧ truncateHash "0xabcd" 4 4 = "0xabcd") ∧
    (4 + 4 + 3 < "0x123456789abc".length ∧
      (truncateHash "0x123456789abc" 4 4).data =
        "0x123456789abc".data.take 4 ++ "...".data ++
          "0x123456789abc".data.drop ("0x123456789abc".data.length - 4)) :=
  ⟨⟨by decide,
    (truncateHash_short_unchanged_long_truncated "0xabcd" 4 4).1 (by decide)⟩,
   ⟨by decide,
    (truncateHash_short_unchanged_long_truncated "0x123456789abc" 4 4).2
      (by decide)⟩⟩

/-! ### Claim C7 -/

/-- C7: `computeKeccakHash` never throws to its caller: for every environment
and input it returns `Except.ok` of some string; when ethers.js is not loaded
that string is the distinct missing-capability message, when either external
call throws it is the computation-error message, and otherwise it is the hash
the capability produced for the UTF-8 encoding of the input; the two error
strings differ. -/
theorem computeKeccakHash_total_and_error_strings :
    (∀ (env : EthersEnv) (input : String),
      ∃ s : String, computeKeccakHash env input = .ok s) ∧
    (∀ (env : EthersEnv) (input : String),
      env.loaded = false →
        computeKeccakHash env input = .ok "Error: ethers.js not loaded") ∧
    (∀ (env : EthersEnv) (input : String) (msg : String),
      env.loaded = true → env.toUtf8Bytes input = .error msg →
        computeKeccakHash env input = .ok "Error computing hash") ∧
    (∀ (env : EthersEnv) (input : String) (msg : String),
      env.loaded = true → env.toUtf8Bytes input = .ok (utf8Bytes input) →
      env.keccak256 (utf8Bytes input) = .error msg →
        computeKeccakHash env input = .ok "Error computing hash") ∧
    (∀ (env : EthersEnv) (input hash : String),
      env.loaded = true → env.toUtf8Bytes input = .ok (utf8Bytes input) →
      env.keccak256 (utf8Bytes input) = .ok hash →
        computeKeccakHash env input = .ok hash) ∧
    "Error: ethers.js not loaded" ≠ "Error computing hash" := by
  refine ⟨?_, ?_, ?_, ?_, ?_, by decide⟩
  · intro env input
    unfold computeKeccakHash
    by_cases henv : env.loaded = false
    · exact ⟨_, by rw [if_pos henv]⟩
    · rw [if_neg henv]
      rcases hb : env.toUtf8Bytes input with m | bytes
      · exact ⟨_, rfl⟩
      · rcases hk : env.keccak256 bytes with m | hash
        · exact ⟨"Error computing hash", by simp [hk]⟩
        · exact ⟨hash, by simp [hk]⟩
  · intro env input hload
    unfold computeKeccakHash
    rw [if_pos hload]
  · intro env input msg hload hbytes
    simp [computeKeccakHash, hload, hbytes]
  · intro env input msg hload hbytes hk
    simp [computeKeccakHash, hload, hbytes, hk]
  · intro env input hash hload hbytes hk
    simp [computeKeccakHash, hload, hbytes, hk]

/-- Witness for C7 at concrete environments. -/
theorem computeKeccakHash_total_and_error_strings_witness :
    computeKeccakHash ⟨false, fun s => .ok (utf8Bytes s),
        fun _ => .ok "0xff"⟩ "hello" = .ok "Error: ethers.js not loaded" ∧
    computeKeccakHash ⟨true, fun s => .ok (utf8Bytes s),
        fun _ => .error "boom"⟩ "hello" = .ok "Error computing hash" ∧
    computeKeccakHash ⟨true, fun s => .ok (utf8Bytes s),
        fun _ => .ok "0xff"⟩ "hello" = .ok "0xff" :=
  ⟨computeKeccakHash_total_and_error_strings.2.1
      ⟨false, fun s => .ok (utf8Bytes s), fun _ => .ok "0xff"⟩ "hello" rfl,
   computeKeccakHash_total_and_error_strings.2.2.2.1
      ⟨true, fun s => .ok (utf8Bytes s), fun _ => .error "boom"⟩ "hello" "boom"
      rfl rfl rfl,
   computeKeccakHash_total_and_error_strings.2.2.2.2.1
      ⟨true, fun s => .ok (utf8Bytes s), fun _ => .ok "0xff"⟩ "hello" "0xff"
      rfl rfl rfl⟩

/-! ### Timer helper lemmas -/

lemma stopTimer_timerInterval (s : TimerSys) :
    (stopTimer s).timerInterval = none := by
  rcases hInt : s.timerInterval with _ | h <;> simp [stopTimer, hInt]

lemma stopTimer_timerSeconds (s : TimerSys) :
    (stopTimer s).timerSeconds = s.timerSeconds := by
  rcases hInt : s.timerInterval with _ | h <;> simp [stopTimer, hInt]

lemma stopTimer_live (s : TimerSys) (hinv : timerHandleInv s) :
    (stopTimer s).live = [] := by
  rcases hInt : s.timerInterval with _ | h
  · simp [stopTimer, hInt, hinv.1 hInt]
  · simp [stopTimer, hInt, clearIntervalIn, hinv.2 h hInt]

lemma stopTimer_handleInv (s : TimerSys) (hinv : timerHandleInv s) :
    timerHandleInv (stopTimer s) := by
  refine ⟨fun _ => stopTimer_live s hinv, fun h hh => ?_⟩
  rw [stopTimer_timerInterval] at hh
  cases hh

lemma resetTimer_timerInterval (s : TimerSys) (found : Bool) (seconds : Int) :
    (resetTimer s found seconds).timerInterval = none := by
  cases found <;> simp [resetTimer, stopTimer_timerInterval]

lemma resetTimer_live (s : TimerSys) (found : Bool) (seconds : Int) :
    (resetTimer s found seconds).live = (stopTimer s).live := by
  cases found <;> simp [resetTimer]

lemma tick_of_expire (s : TimerSys) (hsec : s.timerSeconds - 1 ≤ 0) :
    tick s =
      { s with
        timerSeconds := s.timerSeconds - 1,
        live := clearIntervalIn s.live s.timerInterval,
        timerInterval := none,
        displayText := "TIME\x27S UP!",
        displayAnim := "pulse 0.5s infinite",
        completions := s.completions + (if s.hasCallback then 1 else 0),
        displayColor := "#ef4444" } := by
  have h10 : s.timerSeconds - 1 ≤ 10 := by omega
  simp [tick, tickWrites, hsec, h10]

lemma tick_of_running (s : TimerSys) (hsec : 0 < s.timerSeconds - 1) :
    tick s =
      { s with
        timerSeconds := s.timerSeconds - 1,
        displayText := renderTime (s.timerSeconds - 1),
        displayColor :=
          if s.timerSeconds - 1 ≤ 10 then "#ef4444"
          else if s.timerSeconds - 1 = 30 then "#f59e0b"
          else s.displayColor } := by
  have h : ¬ (s.timerSeconds - 1 ≤ 0) := by omega
  simp [tick, tickWrites, h]

lemma timerReach_handleInv (s : TimerSys) (hs : TimerReach s) :
    timerHandleInv s := by
  induction hs with
  | init =>
    exact ⟨fun _ => rfl, fun h hh => by simp [initTimerSys] at hh⟩
  | start s found seconds cb _ ih =>
    cases found
    · simpa [startTimer] using ih
    · have hlive : clearIntervalIn s.live s.timerInterval = [] := by
        rcases hInt : s.timerInterval with _ | h
        · simp [clearIntervalIn, ih.1 hInt]
        · simp [clearIntervalIn, ih.2 h hInt]
      refine ⟨fun hnone => ?_, fun h hh => ?_⟩
      · simp [startTimer] at hnone
      · simp [startTimer] at hh
        simp [startTimer, hlive, hh]
  | stop s _ ih => exact stopTimer_handleInv s ih
  | reset s found seconds _ ih =>
    refine ⟨fun _ => ?_, fun h hh => ?_⟩
    · rw [resetTimer_live]
      exact stopTimer_live s ih
    · rw [resetTimer_timerInterval] at hh
      cases hh
  | tick s _ hsome ih =>
    rcases hInt : s.timerInterval with _ | h
    · rw [hInt] at hsome
      simp at hsome
    · have hlive := ih.2 h hInt
      by_cases hsec : s.timerSeconds - 1 ≤ 0
      · rw [tick_of_expire s hsec]
        refine ⟨fun _ => ?_, fun h2 hh2 => ?_⟩
        · simp [hInt, clearIntervalIn, hlive]
        · simp at hh2
      · rw [tick_of_running s (by omega)]
        refine ⟨fun hnone => ?_, fun h2 hh2 => ?_⟩
        · simp [hInt] at hnone
        · simp [hInt] at hh2
          simp [hh2] at hlive
          simpa using hlive

lemma timerReachPos_nonneg_inv (s : TimerSys) (hs : TimerReachPos s) :
    0 ≤ s.timerSeconds ∧
      (s.timerInterval.isSome = true → 1 ≤ s.timerSeconds) := by
  induction hs with
  | init => exact ⟨le_refl 0, by simp [initTimerSys]⟩
  | start s found seconds cb _ hpos ih =>
    cases found
    · simpa [startTimer] using ih
    · constructor
      · simp [startTimer]
        omega
      · intro _
        simp [startTimer]
        omega
  | stop s _ ih =>
    refine ⟨?_, ?_⟩
    · rw [stopTimer_timerSeconds]
      exact ih.1
    · rw [stopTimer_timerInterval]
      simp
  | reset s found seconds _ hnn ih =>
    cases found
    · refine ⟨?_, ?_⟩
      · show 0 ≤ (stopTimer s).timerSeconds
        rw [stopTimer_timerSeconds]
        exact ih.1
      · show (stopTimer s).timerInterval.isSome = true → _
        rw [stopTimer_timerInterval]
        simp
    · refine ⟨?_, ?_⟩
      · simpa [resetTimer, stopTimer_timerSeconds] using hnn
      · rw [resetTimer_timerInterval]
        simp
  | tick s _ hsome ih =>
    have h1 : 1 ≤ s.timerSeconds := ih.2 hsome
    by_cases hsec : s.timerSeconds - 1 ≤ 0
    · rw [tick_of_expire s hsec]
      constructor
      · simp
        omega
      · simp
    · rw [tick_of_running s (by omega)]
      constructor
      · simp
        omega
      · intro _
        simp
        omega

/-! ### Claim C2 -/

/-- C2: in every state reachable by any sequence of `startTimer`,
`stopTimer`, `resetTimer` calls and timer ticks, at most one live interval
handle exists: `startTimer` cancels any existing interval before installing
a new one, and `stopTimer`/`resetTimer`/expiry clear it. -/
theorem timer_at_most_one_live_interval :
    ∀ s : TimerSys, TimerReach s → s.live.length ≤ 1 := by
  intro s hs
  have hinv := timerReach_handleInv s hs
  rcases hInt : s.timerInterval with _ | h
  · simp [hinv.1 hInt]
  · simp [hinv.2 h hInt]

/-- Witness for C2 on a concrete reachable state. -/
theorem timer_at_most_one_live_interval_witness :
    (startTimer initTimerSys true 60 false).live.length ≤ 1 :=
  timer_at_most_one_live_interval _
    (TimerReach.start _ true 60 false TimerReach.init)

/-! ### Claim C5 -/

/-- C5 as stated is false: `startTimer` with zero seconds (a non-negative
argument the claim allows) installs an interval whose first firing drives
the stored remaining seconds to `-1`. -/
theorem timer_seconds_negative_after_zero_start :
    TimerReachNonneg (tick (startTimer initTimerSys true 0 false)) ∧
    (tick (startTimer initTimerSys true 0 false)).timerSeconds = -1 := by
  constructor
  · exact TimerReachNonneg.tick _
      (TimerReachNonneg.start _ true 0 false TimerReachNonneg.init
        (le_refl 0)) (by decide)
  · decide

/-- C5 (amended): for every sequence of `startTimer` calls with positive
seconds arguments and `resetTimer` calls with non-negative seconds arguments
interleaved with ticks, the stored remaining seconds never becomes
negative. -/
theorem timer_seconds_nonneg_with_positive_starts :
    ∀ s : TimerSys, TimerReachPos s → 0 ≤ s.timerSeconds :=
  fun s hs => (timerReachPos_nonneg_inv s hs).1

/-- Witness for the amended C5 on a concrete reachable state. -/
theorem timer_seconds_nonneg_with_positive_starts_witness :
    0 ≤ (tick (startTimer initTimerSys true 1 true)).timerSeconds :=
  timer_seconds_nonneg_with_positive_starts _
    (TimerReachPos.tick _
      (TimerReachPos.start _ true 1 true TimerReachPos.init (by decide))
      (by decide))

/-! ### Claim C10 -/

/-- C10: `stopTimer` modifies only the interval handle: afterwards the
handle is `none` while the stored remaining seconds, the displayed text and
the display's colour and animation styles are exactly as before; from the
no-handle state it changes nothing, and it is idempotent. -/
theorem stopTimer_clears_handle_only :
    ∀ s : TimerSys,
      (stopTimer s).timerInterval = none ∧
      (stopTimer s).timerSeconds = s.timerSeconds ∧
      (stopTimer s).displayText = s.displayText ∧
      (stopTimer s).displayColor = s.displayColor ∧
      (stopTimer s).displayAnim = s.displayAnim ∧
      (s.timerInterval = none → stopTimer s = s) ∧
      stopTimer (stopTimer s) = stopTimer s := by
  intro s
  rcases hInt : s.timerInterval with _ | h <;>
    simp [stopTimer, hInt]

/-- Witness for C10 at a concrete state. -/
theorem stopTimer_clears_handle_only_witness :
    stopTimer (stopTimer initTimerSys) = stopTimer initTimerSys :=
  (stopTimer_clears_handle_only initTimerSys).2.2.2.2.2.2

/-! ### Claim C3 -/

lemma ticks_expire_run :
    ∀ (m : Nat) (s : TimerSys) (h : Nat),
      s.timerInterval = some h → s.timerSeconds = (m : Int) + 1 →
      (ticks (m + 1) s).timerSeconds = 0 ∧
      (ticks (m + 1) s).timerInterval = none ∧
      (ticks (m + 1) s).live = s.live.erase h ∧
      (ticks (m + 1) s).displayText = "TIME\x27S UP!" ∧
      (ticks (m + 1) s).displayAnim = "pulse 0.5s infinite" ∧
      (ticks (m + 1) s).completions =
        s.completions + (if s.hasCallback then 1 else 0) := by
  intro m
  induction m with
  | zero =>
    intro s h hInt hsec
    have h0 : ticks (0 + 1) s = tick s := rfl
    rw [h0, tick_of_expire s (by omega)]
    simp [hInt, clearIntervalIn]
    omega
  | succ m ih =>
    intro s h hInt hsec
    have hpos : 0 < s.timerSeconds - 1 := by omega
    have htick := tick_of_running s hpos
    have h1 : (tick s).timerInterval = some h := by
      rw [htick]
      exact hInt
    have h2 : (tick s).timerSeconds = (m : Int) + 1 := by
      rw [htick]
      show s.timerSeconds - 1 = (m : Int) + 1
      omega
    have h3 : (tick s).live = s.live := by rw [htick]
    have h4 : (tick s).completions = s.completions := by rw [htick]
    have h5 : (tick s).hasCallback = s.hasCallback := by rw [htick]
    have hstep : ticks (m + 1 + 1) s = ticks (m + 1) (tick s) := rfl
    obtain ⟨c1, c2, c3, c4, c5, c6⟩ := ih (tick s) h h1 h2
    rw [hstep]
    exact ⟨c1, c2, by rw [c3, h3], c4, c5, by rw [c6, h4, h5]⟩

/-- C3: starting the timer with a positive number of seconds `n`, after
exactly `n` ticks the remaining seconds reach zero, the interval is cleared
(so no further decrement can fire), the display shows the fixed message with
the pulsing cue, and the optional completion callback has run exactly once;
for `n = 5` the final tick writes `"0:00"` to the display just before the
completion state. -/
theorem startTimer_expiry_behaviour :
    (∀ (n : Nat) (cb : Bool), 0 < n →
      (ticks n (startTimer initTimerSys true (n : Int) cb)).timerSeconds = 0 ∧
      (ticks n (startTimer initTimerSys true (n : Int) cb)).timerInterval
        = none ∧
      (ticks n (startTimer initTimerSys true (n : Int) cb)).live = [] ∧
      (ticks n (startTimer initTimerSys true (n : Int) cb)).displayText
        = "TIME\x27S UP!" ∧
      (ticks n (startTimer initTimerSys true (n : Int) cb)).displayAnim
        = "pulse 0.5s infinite" ∧
      (ticks n (startTimer initTimerSys true (n : Int) cb)).completions
        = (if cb then 1 else 0)) ∧
    (tickWrites (ticks 4 (startTimer initTimerSys true 5 true))).2 =
      ["0:00", "TIME\x27S UP!"] := by
  constructor
  · intro n cb hn
    obtain ⟨m, rfl⟩ : ∃ m, n = m + 1 := ⟨n - 1, by omega⟩
    have hInt :
        (startTimer initTimerSys true ((m + 1 : Nat) : Int) cb).timerInterval
          = some 1 := by
      simp [startTimer, initTimerSys]
    have hsec :
        (startTimer initTimerSys true ((m + 1 : Nat) : Int) cb).timerSeconds
          = (m : Int) + 1 := by
      simp [startTimer, initTimerSys]
    have hlive :
        (startTimer initTimerSys true ((m + 1 : Nat) : Int) cb).live
          = [1] := by
      simp [startTimer, initTimerSys, clearIntervalIn]
    have hcomp :
        (startTimer initTimerSys true ((m + 1 : Nat) : Int) cb).completions
          = 0 := by
      simp [startTimer, initTimerSys]
    have hcb :
        (startTimer initTimerSys true ((m + 1 : Nat) : Int) cb).hasCallback
          = cb := by
      simp [startTimer, initTimerSys]
    obtain ⟨c1, c2, c3, c4, c5, c6⟩ :=
      ticks_expire_run m (startTimer initTimerSys true ((m + 1 : Nat) : Int)
        cb) 1 hInt hsec
    refine ⟨c1, c2, ?_, c4, c5, ?_⟩
    · rw [c3, hlive]
      rfl
    · rw [c6, hcomp, hcb]
      simp
  · decide

/-- Witness for C3 at `n = 5`. -/
theorem startTimer_expiry_behaviour_witness :
    0 < 5 ∧
    (ticks 5 (startTimer initTimerSys true ((5 : Nat) : Int)
      true)).displayText = "TIME\x27S UP!" :=
  ⟨by decide, (startTimer_expiry_behaviour.1 5 true (by decide)).2.2.2.1⟩

/-! ### Claim C4 -/

lemma padStart_two_digits :
    ∀ j : Nat, j < 60 →
      padStart (toString j) 2 '0' =
        if j < 10 then "0" ++ toString j else toString j := by
  decide

/-- C4: each tick decrements and re-renders the display as `M:SS` with the
seconds zero-padded to two digits, then runs both colour threshold checks:
the colour becomes the warning tone exactly when the remaining seconds land
on 30 and the danger tone whenever they are 10 or below; the danger check is
idempotent and the warning colour set at 30 persists until overridden at or
below 10. -/
theorem tick_rerenders_and_applies_thresholds :
    (∀ (s : TimerSys) (h : Nat), s.timerInterval = some h →
      (0 < s.timerSeconds - 1 →
        (tick s).displayText = renderTime (s.timerSeconds - 1)) ∧
      ((tick s).displayColor =
        (if s.timerSeconds - 1 ≤ 10 then "#ef4444"
         else if s.timerSeconds - 1 = 30 then "#f59e0b"
         else s.displayColor)) ∧
      (s.timerSeconds = 31 → (tick s).displayColor = "#f59e0b") ∧
      (s.timerSeconds - 1 ≤ 10 → (tick s).displayColor = "#ef4444") ∧
      (s.displayColor = "#ef4444" → s.timerSeconds - 1 ≤ 10 →
        (tick s).displayColor = s.displayColor) ∧
      (s.displayColor = "#f59e0b" → 10 < s.timerSeconds - 1 →
        (tick s).displayColor = "#f59e0b")) ∧
    (∀ m : Nat, renderTime (m : Int) =
      toString (m / 60) ++ ":" ++
        (if m % 60 < 10 then "0" ++ toString (m % 60)
         else toString (m % 60))) := by
  constructor
  · intro s h hInt
    have hcolor : (tick s).displayColor =
        (if s.timerSeconds - 1 ≤ 10 then "#ef4444"
         else if s.timerSeconds - 1 = 30 then "#f59e0b"
         else s.displayColor) := by
      by_cases hsec : s.timerSeconds - 1 ≤ 0
      · rw [tick_of_expire s hsec]
        have h10 : s.timerSeconds - 1 ≤ 10 := by omega
        simp [h10]
      · rw [tick_of_running s (by omega)]
    refine ⟨?_, hcolor, ?_, ?_, ?_, ?_⟩
    · intro hpos
      rw [tick_of_running s hpos]
    · intro h31
      rw [hcolor, if_neg (by omega), if_pos (by omega)]
    · intro h10
      rw [hcolor, if_pos h10]
    · intro hdanger h10
      rw [hcolor, if_pos h10, hdanger]
    · intro hwarn h10
      rw [hcolor, if_neg (by omega)]
      by_cases h30 : s.timerSeconds - 1 = 30
      · rw [if_pos h30]
      · rw [if_neg h30, hwarn]
  · intro m
    have hf : Int.fdiv (m : Int) 60 = ((m / 60 : Nat) : Int) :=
      (Int.ofNat_fdiv m 60).symm
    have ht : Int.tmod (m : Int) 60 = ((m % 60 : Nat) : Int) := by
      rw [Int.tmod_eq_emod (Int.natCast_nonneg m) (by omega)]
      exact_mod_cast rfl
    have h0 : renderTime (m : Int) =
        toString (m / 60) ++ ":" ++ padStart (toString (m % 60)) 2 '0' := by
      unfold renderTime
      rw [hf, ht]
      rfl
    rw [h0, padStart_two_digits (m % 60) (Nat.mod_lt _ (by decide))]

/-- Witness for C4 on a concrete tick crossing the warning threshold. -/
theorem tick_rerenders_and_applies_thresholds_witness :
    (tick (startTimer initTimerSys true 31 false)).displayColor
      = "#f59e0b" :=
  (tick_rerenders_and_applies_thresholds.1
    (startTimer initTimerSys true 31 false) 1 (by decide)).2.2.1 (by decide)

/-! ### DOM helper lemmas -/

lemma updateFirst_of_no_match {α : Type} (p : α → Prop) [DecidablePred p]
    (f : α → α) :
    ∀ l : List α, (∀ x ∈ l, ¬ p x) → updateFirst p f l = l := by
  intro l h
  induction l with
  | nil => rfl
  | cons x xs ih =>
    simp only [updateFirst, if_neg (h x (by simp))]
    rw [ih (fun y hy => h y (by simp [hy]))]

lemma updateFirst_length {α : Type} (p : α → Prop) [DecidablePred p]
    (f : α → α) : ∀ l : List α, (updateFirst p f l).length = l.length := by
  intro l
  induction l with
  | nil => rfl
  | cons x xs ih => by_cases hx : p x <;> simp [updateFirst, hx, ih]

lemma updateFirst_get {α : Type} (p : α → Prop) [DecidablePred p]
    (f : α → α) :
    ∀ (l : List α) (k : Nat) (hk : k < l.length)
      (hk2 : k < (updateFirst p f l).length),
      (updateFirst p f l).get ⟨k, hk2⟩ =
        if firstMatchIdx p l = some k then f (l.get ⟨k, hk⟩)
        else l.get ⟨k, hk⟩ := by
  intro l
  induction l with
  | nil => intro k hk _; exact absurd hk (by simp)
  | cons x xs ih =>
    intro k hk hk2
    by_cases hx : p x
    · cases k with
      | zero => simp [updateFirst, firstMatchIdx, hx]
      | succ j => simp [updateFirst, firstMatchIdx, hx]
    · cases k with
      | zero => simp [updateFirst, firstMatchIdx, hx]
      | succ j =>
        have hk' : j < xs.length := by simpa using hk
        have hk2' : j < (updateFirst p f xs).length := by
          simpa [updateFirst, hx] using hk2
        have hih := ih j hk' hk2'
        rcases hidx : firstMatchIdx p xs with _ | i
        · rw [hidx] at hih
          simp at hih
          simp only [updateFirst, if_neg hx] at hk2 ⊢
          simp [firstMatchIdx, hx, hidx, hih]
        · rw [hidx] at hih
          by_cases hij : i = j
          · subst hij
            simp at hih
            simp only [updateFirst, if_neg hx] at hk2 ⊢
            simp [firstMatchIdx, hx, hidx, hih]
          · rw [if_neg (by simp [hij])] at hih
            simp only [List.get_eq_getElem] at hih
            simp only [updateFirst, if_neg hx] at hk2 ⊢
            simp [firstMatchIdx, hx, hidx, hih, hij]

lemma classListAdd_id (e : Elem) (c : String) :
    (classListAdd e c).id = e.id := by
  unfold classListAdd
  split <;> rfl

lemma stripCurrentElem_id (e : Elem) :
    (stripCurrentElem e).id = e.id := by
  unfold stripCurrentElem
  split <;> rfl

lemma mem_classListAdd (e : Elem) (c d : String) :
    d ∈ (classListAdd e c).classes ↔ d ∈ e.classes ∨ d = c := by
  by_cases hc : c ∈ e.classes
  · simp only [classListAdd, if_pos hc]
    exact ⟨Or.inl, fun h => h.elim id (fun hdc => hdc ▸ hc)⟩
  · simp [classListAdd, hc]

lemma mem_classListRemove (e : Elem) (c d : String) :
    d ∈ (classListRemove e c).classes ↔ d ∈ e.classes ∧ d ≠ c := by
  simp [classListRemove, List.mem_filter]

lemma mem_stripCurrentElem_current (e : Elem) :
    "current" ∈ (stripCurrentElem e).classes ↔
      "current" ∈ e.classes ∧ "progress-item" ∉ e.classes := by
  unfold stripCurrentElem
  by_cases h : "progress-item" ∈ e.classes ∧ "current" ∈ e.classes
  · rw [if_pos h, mem_classListRemove]
    simp [h.1, h.2]
  · rw [if_neg h]
    constructor
    · intro hc
      exact ⟨hc, fun hp => h ⟨hp, hc⟩⟩
    · exact fun hc => hc.1

lemma mem_stripCurrentElem_of_ne (e : Elem) (d : String)
    (hd : d ≠ "current") :
    d ∈ (stripCurrentElem e).classes ↔ d ∈ e.classes := by
  unfold stripCurrentElem
  split
  · rw [mem_classListRemove]
    simp [hd]
  · exact Iff.rfl

lemma firstMatchIdx_map {α : Type} (p : α → Prop) [DecidablePred p]
    (g : α → α) (hg : ∀ x, p (g x) ↔ p x) :
    ∀ l : List α, firstMatchIdx p (l.map g) = firstMatchIdx p l := by
  intro l
  induction l with
  | nil => rfl
  | cons x xs ih =>
    by_cases hx : p x
    · simp [firstMatchIdx, hx, (hg x).2 hx]
    · have hgx : ¬ p (g x) := fun hc => hx ((hg x).1 hc)
      simp [firstMatchIdx, hx, hgx, ih]

/-! ### Claim C6 -/

/-- C6 as stated is false: `resetTimer` calls `stopTimer()` before looking
up the display element, so with a missing display identifier it still clears
a running timer's interval handle rather than changing nothing. -/
theorem resetTimer_missing_display_stops_timer :
    resetTimer (startTimer initTimerSys true 5 false) false 120 ≠
      startTimer initTimerSys true 5 false := by
  decide

/-- C6 (amended): an operation whose identifier does not resolve to an
element is a silent no-op on all process-wide state and the page, with two
exceptions forced by the source order: `resetTimer` still runs `stopTimer()`
(clearing any interval handle, nothing else) before its lookup, and
`setCurrent` still strips `'current'` from `.progress-item.current` matches
before its lookup. -/
theorem missing_element_noop_amended :
    (∀ (s : TimerSys) (seconds : Int) (cb : Bool),
      startTimer s false seconds cb = s) ∧
    (∀ (s : TimerSys) (seconds : Int),
      resetTimer s false seconds = stopTimer s) ∧
    (∀ (dom : List Elem) (i : String), (∀ e ∈ dom, e.id ≠ i) →
      revealAnswer dom i = dom ∧ hideAnswer dom i = dom ∧
      markComplete dom i = dom ∧ setCurrent dom i = stripCurrent dom) ∧
    (∀ (ms : MerkleSys) (i : String), (∀ c ∈ ms.containers, c.id ≠ i) →
      animateMerkleTree ms i = ms ∧ resetMerkleAnimation ms i = ms) ∧
    (∀ (blocks : List CodeBlock) (i : String) (ln : Int),
      (∀ b ∈ blocks, b.id ≠ i) → highlightBug blocks i ln = blocks) := by
  refine ⟨fun s seconds cb => rfl, fun s seconds => rfl, ?_, ?_, ?_⟩
  · intro dom i h
    have hs : ∀ e ∈ stripCurrent dom, e.id ≠ i := by
      intro e he
      obtain ⟨e0, he0, rfl⟩ := List.mem_map.1 he
      rw [stripCurrentElem_id]
      exact h e0 he0
    exact ⟨updateFirst_of_no_match _ _ dom h,
      updateFirst_of_no_match _ _ dom h,
      updateFirst_of_no_match _ _ dom h,
      updateFirst_of_no_match _ _ (stripCurrent dom) hs⟩
  · intro ms i h
    have hf : ms.containers.find? (fun c => c.id == i) = none := by
      rw [List.find?_eq_none]
      intro c hc
      simp [h c hc]
    exact ⟨by simp [animateMerkleTree, hf], by simp [resetMerkleAnimation, hf]⟩
  · intro blocks i ln h
    exact updateFirst_of_no_match _ _ blocks h

/-- Witness for the amended C6 on concrete inputs. -/
theorem missing_element_noop_amended_witness :
    revealAnswer [⟨"quiz", []⟩] "other" = [⟨"quiz", []⟩] ∧
    animateMerkleTree ⟨0, [⟨"tree", [false]⟩]⟩ "other"
      = ⟨0, [⟨"tree", [false]⟩]⟩ :=
  ⟨(missing_element_noop_amended.2.2.1 [⟨"quiz", []⟩] "other"
      (by decide)).1,
   (missing_element_noop_amended.2.2.2.1 ⟨0, [⟨"tree", [false]⟩]⟩ "other"
      (by decide)).1⟩

/-! ### Claim C9 -/

/-- C9 as stated is false: the strip phase selects only
`.progress-item.current` matches, so an element carrying `'current'` without
the `'progress-item'` marker class keeps `'current'` when `setCurrent` is
called for another element. -/
theorem setCurrent_misses_non_progress_item :
    setCurrent [⟨"a", ["current"]⟩, ⟨"b", []⟩] "b" =
      [⟨"a", ["current"]⟩, ⟨"b", ["current"]⟩] := by
  decide

/-- C9 (amended): `setCurrent(id)` first removes `'current'` from every
element that has both the `'progress-item'` marker class and `'current'`
(elements with `'current'` but no `'progress-item'` keep it), then adds
`'current'` to the element with identifier `id` if it exists and is not
marked `'completed'`; element identifiers and positions are preserved. -/
theorem setCurrent_strips_progress_items_only :
    ∀ (dom : List Elem) (itemId : String),
      (setCurrent dom itemId).length = dom.length ∧
      ∀ (k : Nat) (hk : k < dom.length)
        (hk2 : k < (setCurrent dom itemId).length),
        ((setCurrent dom itemId).get ⟨k, hk2⟩).id = (dom.get ⟨k, hk⟩).id ∧
        ("current" ∈ ((setCurrent dom itemId).get ⟨k, hk2⟩).classes ↔
          (firstMatchIdx (fun e => e.id = itemId) dom = some k ∧
            "completed" ∉ (dom.get ⟨k, hk⟩).classes) ∨
          ("current" ∈ (dom.get ⟨k, hk⟩).classes ∧
            "progress-item" ∉ (dom.get ⟨k, hk⟩).classes)) := by
  intro dom itemId
  unfold setCurrent
  have hlen1 : (stripCurrent dom).length = dom.length := by
    simp [stripCurrent]
  refine ⟨by rw [updateFirst_length, hlen1], ?_⟩
  intro k hk hk2
  have hk1 : k < (stripCurrent dom).length := by omega
  have hget := updateFirst_get (fun e => e.id = itemId)
    (fun e => if "completed" ∈ e.classes then e else classListAdd e "current")
    (stripCurrent dom) k hk1 hk2
  have hstripget :
      (stripCurrent dom).get ⟨k, hk1⟩ = stripCurrentElem (dom.get ⟨k, hk⟩) := by
    simp [stripCurrent]
  have hidx : firstMatchIdx (fun e => e.id = itemId) (stripCurrent dom) =
      firstMatchIdx (fun e => e.id = itemId) dom :=
    firstMatchIdx_map _ _ (fun e => by rw [stripCurrentElem_id]) dom
  rw [hstripget, hidx] at hget
  by_cases hcase : firstMatchIdx (fun e => e.id = itemId) dom = some k
  · rw [if_pos hcase] at hget
    by_cases hcomp :
        "completed" ∈ (stripCurrentElem (dom.get ⟨k, hk⟩)).classes
    · rw [if_pos hcomp] at hget
      have hcomp' : "completed" ∈ (dom.get ⟨k, hk⟩).classes :=
        (mem_stripCurrentElem_of_ne _ _ (by decide)).1 hcomp
      refine ⟨by rw [hget, stripCurrentElem_id], ?_⟩
      rw [hget, mem_stripCurrentElem_current]
      constructor
      · exact fun hc => Or.inr hc
      · rintro (⟨_, hno⟩ | hc)
        · exact absurd hcomp' hno
        · exact hc
    · rw [if_neg hcomp] at hget
      have hcomp' : "completed" ∉ (dom.get ⟨k, hk⟩).classes :=
        fun hc => hcomp ((mem_stripCurrentElem_of_ne _ _ (by decide)).2 hc)
      refine ⟨by rw [hget, classListAdd_id, stripCurrentElem_id], ?_⟩
      rw [hget, mem_classListAdd]
      constructor
      · exact fun _ => Or.inl ⟨hcase, hcomp'⟩
      · exact fun _ => Or.inr rfl
  · rw [if_neg hcase] at hget
    refine ⟨by rw [hget, stripCurrentElem_id], ?_⟩
    rw [hget, mem_stripCurrentElem_current]
    constructor
    · exact fun hc => Or.inr hc
    · rintro (⟨hk0, _⟩ | hc)
      · exact absurd hk0 hcase
      · exact hc

/-- Witness for the amended C9 at a concrete page. -/
theorem setCurrent_strips_progress_items_only_witness :
    ((setCurrent [⟨"p1", ["progress-item", "current"]⟩,
        ⟨"p2", ["progress-item"]⟩] "p2").get ⟨0, by decide⟩).id =
      (([⟨"p1", ["progress-item", "current"]⟩,
        ⟨"p2", ["progress-item"]⟩] : List Elem).get ⟨0, by decide⟩).id :=
  ((setCurrent_strips_progress_items_only
      [⟨"p1", ["progress-item", "current"]⟩, ⟨"p2", ["progress-item"]⟩]
      "p2").2 0 (by decide) (by decide)).1

end Interactive
